import Mathlib

/-!
Shallow embedding of the openweather-airflow-postgres pipeline core:
`weather_pipeline/transform.py`, `weather_pipeline/extract.py`,
`weather_pipeline/load.py` and the task wiring of
`dags/weather_ingestion_hourly.py`, together with proofs of the
specification's testable properties.

Modelling conventions:
* JSON values (Python dicts/lists produced by `response.json()`) are the
  inductive type `Json`; JSON numbers are rationals (no arithmetic is ever
  performed on them by the pipeline, they are only copied, compared for
  presence, or truncated to an integer by Python `int(...)`).
* A Python dict annotated `Dict[str, Any]` is an association list
  `List (String × Json)`; a Python value of `None` and an absent key both
  read back as `Json.null`, matching `dict.get` semantics in the source.
* UTC instants (`datetime` values, `timestamptz` columns) are modelled as
  integers counting seconds since the Unix epoch;
  `datetime.fromtimestamp(n, tz=timezone.utc)` is the instant `n`.
* Python exceptions become `Except` values whose error constructors record
  which `raise` site (or uncaught exception source) produced them.
-/

inductive Json where
  | null
  | bool (b : Bool)
  | num (q : ℚ)
  | str (s : String)
  | arr (elems : List Json)
  | obj (fields : List (String × Json))

/-- Python `d.get(k)` on a top-level `Dict[str, Any]`: absent keys and
stored `None` values both come back as `Json.null`. -/
def aget (d : List (String × Json)) (k : String) : Json :=
  (d.lookup k).getD Json.null

/-- Python `cur.get(k)` applied to an arbitrary JSON value `cur`, as used on
nested containers after an `isinstance(cur, dict)`-style guard: a non-dict
or an absent key yields `None`. -/
def jget (j : Json) (k : String) : Json :=
  match j with
  | Json.obj fields => aget fields k
  | _ => Json.null

/-- `payload.get(k, {}) if isinstance(payload.get(k), dict) else {}` from
`transform.py`: the sub-object's fields when it is a dict, else empty. -/
def asDict (j : Json) : List (String × Json) :=
  match j with
  | Json.obj fields => fields
  | _ => []

/-- `_safe_get(payload, k1, k2)` from `transform.py` for the two-key paths
`rain.1h` and `snow.1h`: walk into nested dicts, defaulting to `None` when a
level is not a dict or the key is absent. -/
def safe_get2 (d : List (String × Json)) (k1 k2 : String) : Json :=
  jget (aget d k1) k2

/-- Python `int(x)` truncates a real number toward zero. -/
def ratTruncToInt (q : ℚ) : ℤ :=
  if 0 ≤ q then ⌊q⌋ else ⌈q⌉

/-- Decimal digit run accumulator for `pyIntOfString`; `none` as soon as a
non-digit character appears. -/
def digitsToNat : List Char → ℕ → Option ℕ
  | [], acc => some acc
  | c :: cs, acc =>
    if 48 ≤ c.toNat ∧ c.toNat ≤ 57 then digitsToNat cs (acc * 10 + (c.toNat - 48))
    else none

/-- Python `int(s)` on a string: an optional sign followed by at least one
decimal digit parses, anything else raises `ValueError` (modelled as
`none`). -/
def pyIntOfString (s : String) : Option ℤ :=
  match s.toList with
  | [] => none
  | '-' :: cs =>
    if cs = [] then none else (digitsToNat cs 0).map (fun n => -(n : ℤ))
  | '+' :: cs =>
    if cs = [] then none else (digitsToNat cs 0).map (fun n => (n : ℤ))
  | cs => (digitsToNat cs 0).map (fun n => (n : ℤ))

/-- Python `int(x)` on a JSON value: numbers truncate toward zero, booleans
coerce, decimal integer strings parse; everything else raises
(`TypeError`/`ValueError`), modelled as `none`. -/
def pyIntOfJson : Json → Option ℤ
  | Json.num q => some (ratTruncToInt q)
  | Json.bool b => some (if b then 1 else 0)
  | Json.str s => pyIntOfString s
  | _ => none

/-- How `normalize_current_weather_payload` can raise: `missingDt` is the
explicit `ValueError("Payload missing 'dt' (observation time)")` at
`transform.py:30`; `dtConversion` is an uncaught exception escaping the
`int(ts)` call inside `_utc_dt_from_unix` (`transform.py:11`). -/
inductive NormError where
  | missingDt
  | dtConversion
deriving DecidableEq

/-- `_utc_dt_from_unix(ts)` from `transform.py`, applied to the raw JSON
value found under `"dt"`: `None` maps to `None`; otherwise `int(ts)` either
yields the epoch second (as a UTC instant) or raises. -/
def utc_dt_from_unix : Json → Except Unit (Option ℤ)
  | Json.null => Except.ok none
  | v =>
    match pyIntOfJson v with
    | some n => Except.ok (some n)
    | none => Except.error ()

/-- The curated observation fields produced by the normalizer
(`mart.weather_observation` columns except location and ingestion ids).
Optional columns hold the JSON value copied from the payload, `Json.null`
when absent. -/
structure Normalized where
  observed_at : ℤ
  temp_c : Json
  feels_like_c : Json
  humidity_pct : Json
  pressure_hpa : Json
  wind_speed_mps : Json
  wind_deg : Json
  clouds_pct : Json
  visibility_m : Json
  rain_1h_mm : Json
  snow_1h_mm : Json
  weather_main : Json
  weather_description : Json

/-- `normalize_current_weather_payload(payload)` from `transform.py`. -/
def normalize_current_weather_payload (payload : List (String × Json)) :
    Except NormError Normalized :=
  match utc_dt_from_unix (aget payload "dt") with
  | Except.error _ => Except.error NormError.dtConversion
  | Except.ok none => Except.error NormError.missingDt
  | Except.ok (some observed) =>
    let main := asDict (aget payload "main")
    let wind := asDict (aget payload "wind")
    let clouds := asDict (aget payload "clouds")
    let weather0 : Option (List (String × Json)) :=
      match aget payload "weather" with
      | Json.arr (x :: _) =>
        match x with
        | Json.obj fields => some fields
        | _ => none
      | _ => none
    Except.ok
      { observed_at := observed
        temp_c := aget main "temp"
        feels_like_c := aget main "feels_like"
        humidity_pct := aget main "humidity"
        pressure_hpa := aget main "pressure"
        wind_speed_mps := aget wind "speed"
        wind_deg := aget wind "deg"
        clouds_pct := aget clouds "all"
        visibility_m := aget payload "visibility"
        rain_1h_mm := safe_get2 payload "rain" "1h"
        snow_1h_mm := safe_get2 payload "snow" "1h"
        weather_main := match weather0 with
          | some w => aget w "main"
          | none => Json.null
        weather_description := match weather0 with
          | some w => aget w "description"
          | none => Json.null }

example :
    normalize_current_weather_payload
      [("dt", Json.num 1700000000), ("main", Json.obj [("temp", Json.num 10.5)])] =
    Except.ok
      { observed_at := 1700000000
        temp_c := Json.num 10.5
        feels_like_c := Json.null
        humidity_pct := Json.null
        pressure_hpa := Json.null
        wind_speed_mps := Json.null
        wind_deg := Json.null
        clouds_pct := Json.null
        visibility_m := Json.null
        rain_1h_mm := Json.null
        snow_1h_mm := Json.null
        weather_main := Json.null
        weather_description := Json.null } := rfl

example :
    normalize_current_weather_payload [("main", Json.obj [])] =
    Except.error NormError.missingDt := rfl

example :
    normalize_current_weather_payload [("dt", Json.str "abc")] =
    Except.error NormError.dtConversion := rfl

/-!
## Fetcher (`weather_pipeline/extract.py`)

`fetch_current_weather` performs up to `max_retries + 1` HTTP attempts.
The network's behaviour is a function `world : Nat → AttemptOutcome`
giving the outcome of the attempt with each index: either a
transport-level failure (`requests.Timeout` / `requests.ConnectionError`,
the only exceptions the loop's `except` clause catches besides
`requests.HTTPError`, which `requests.get` itself never raises), or an
HTTP response carrying a status code and a body that `r.json()` either
parses or fails to parse.  The `time.sleep` calls are recorded as the list
of slept durations, in order.
-/

/-- Result of `r.json()` on an obtained response: a parsed JSON body, or a
decode failure (in which case `r.text` is still available). -/
inductive BodyParse where
  | ok (j : Json)
  | fail (text : String)

/-- Outcome of one `requests.get` attempt. -/
inductive AttemptOutcome where
  | transportErr
  | resp (status : ℕ) (body : BodyParse)

/-- The query-parameter dict built at `extract.py:41` and echoed in the
returned record. -/
structure ReqParams where
  lat : ℚ
  lon : ℚ
  appid : String
  units : String

/-- The dict returned by `fetch_current_weather`; `data_timestamp` is the
ISO-8601 UTC rendering of the payload's `dt` field, modelled as the epoch
second itself. -/
structure FetchRet where
  http_status : ℕ
  payload : Json
  request_params : ReqParams
  data_timestamp : Option ℤ

/-- How a run of `fetch_current_weather` can end.  `transportRaise` is the
bare `raise` at `extract.py:93` re-raising the transport exception after
retries are exhausted; `jsonRaise` is an uncaught `r.json()` decode error
at `extract.py:74` (not in the caught exception tuple); `dtRaise` is an
uncaught `int(ts)` failure inside `_utc_from_unix`; `runtimeRaise` is the
trailing `RuntimeError` at `extract.py:96` after the loop. -/
inductive FetchOut where
  | ret (r : FetchRet) (sleeps : List ℚ)
  | transportRaise (sleeps : List ℚ)
  | jsonRaise (sleeps : List ℚ)
  | dtRaise (sleeps : List ℚ)
  | runtimeRaise (sleeps : List ℚ)

/-- `http_status in (429, 500, 502, 503, 504)` from `extract.py:55`. -/
def retryableStatus (s : ℕ) : Prop :=
  s ∈ ([429, 500, 502, 503, 504] : List ℕ)

instance (s : ℕ) : Decidable (retryableStatus s) :=
  decidable_of_iff (s ∈ ([429, 500, 502, 503, 504] : List ℕ)) Iff.rfl

/-- An attempt outcome on which the loop would retry (given budget):
transport failure or retryable HTTP status. -/
def retryableOutcome : AttemptOutcome → Prop
  | AttemptOutcome.transportErr => True
  | AttemptOutcome.resp s _ => retryableStatus s

instance : DecidablePred retryableOutcome := fun o =>
  match o with
  | AttemptOutcome.transportErr => isTrue trivial
  | AttemptOutcome.resp s _ => inferInstanceAs (Decidable (retryableStatus s))

/-- The non-retryable 4xx branch (`extract.py:62`): `try r.json()` with a
fallback capturing the raw text. -/
def fallbackBody : BodyParse → Json
  | BodyParse.ok j => j
  | BodyParse.fail t => Json.obj [("raw_text", Json.str t)]

/-- Lines 75-78 of `extract.py`: `data_ts = None`, then when the payload is
a dict with a `"dt"` key, `_utc_from_unix(payload.get("dt"))`, whose
`int(ts)` call can raise (modelled as `Except.error`). -/
def extract_data_timestamp : Json → Except Unit (Option ℤ)
  | Json.obj fields =>
    match fields.lookup "dt" with
    | none => Except.ok none
    | some Json.null => Except.ok none
    | some v =>
      match pyIntOfJson v with
      | some n => Except.ok (some n)
      | none => Except.error ()
  | _ => Except.ok none

/-- The body of the `for attempt in range(max_retries + 1)` loop at
`extract.py:49`, with `rem` the number of loop iterations still available
(initially `max_retries + 1`); exhausting `rem` falls through to the
trailing `RuntimeError`. -/
def fetchGo (world : ℕ → AttemptOutcome) (params : ReqParams) (max_retries : ℕ)
    (backoff_seconds : ℚ) : ℕ → ℕ → List ℚ → FetchOut
  | _, 0, sleeps => FetchOut.runtimeRaise sleeps
  | attempt, rem + 1, sleeps =>
    match world attempt with
    | AttemptOutcome.transportErr =>
      if attempt < max_retries then
        fetchGo world params max_retries backoff_seconds (attempt + 1) rem
          (sleeps ++ [backoff_seconds * 2 ^ attempt])
      else FetchOut.transportRaise sleeps
    | AttemptOutcome.resp s body =>
      if retryableStatus s ∧ attempt < max_retries then
        fetchGo world params max_retries backoff_seconds (attempt + 1) rem
          (sleeps ++ [backoff_seconds * 2 ^ attempt])
      else if 400 ≤ s ∧ ¬ retryableStatus s then
        FetchOut.ret
          { http_status := s, payload := fallbackBody body,
            request_params := params, data_timestamp := none } sleeps
      else
        match body with
        | BodyParse.fail _ => FetchOut.jsonRaise sleeps
        | BodyParse.ok j =>
          match extract_data_timestamp j with
          | Except.error _ => FetchOut.dtRaise sleeps
          | Except.ok dts =>
            FetchOut.ret
              { http_status := s, payload := j,
                request_params := params, data_timestamp := dts } sleeps

/-- `fetch_current_weather` from `extract.py`, with the network modelled by
`world`. -/
def fetch_current_weather (world : ℕ → AttemptOutcome) (api_key : String)
    (lat lon : ℚ) (units : String) (max_retries : ℕ) (backoff_seconds : ℚ) :
    FetchOut :=
  fetchGo world { lat := lat, lon := lon, appid := api_key, units := units }
    max_retries backoff_seconds 0 (max_retries + 1) []

/-- The exponential backoff sleep sequence accumulated by `k` retried
attempts: `backoff_seconds * 2 ^ attempt` for `attempt = 0, ..., k-1`. -/
def sleepSeq (b : ℚ) (k : ℕ) : List ℚ :=
  (List.range k).map (fun i => b * 2 ^ i)

/-- Whether a fetch run ended at the trailing `RuntimeError`. -/
def FetchOut.isRuntimeRaise : FetchOut → Bool
  | FetchOut.runtimeRaise _ => true
  | _ => false

/-- Whether a fetch run returned normally. -/
def FetchOut.isRet : FetchOut → Bool
  | FetchOut.ret _ _ => true
  | _ => false

example :
    fetch_current_weather
      (fun i => if i < 2 then AttemptOutcome.resp 503 (BodyParse.ok Json.null)
                else AttemptOutcome.resp 200 (BodyParse.ok (Json.obj [])))
      "k" 1 2 "metric" 3 1 =
    FetchOut.ret
      { http_status := 200, payload := Json.obj [],
        request_params := { lat := 1, lon := 2, appid := "k", units := "metric" },
        data_timestamp := none } (sleepSeq 1 2) := rfl

example :
    fetch_current_weather (fun _ => AttemptOutcome.resp 503 (BodyParse.fail "oops"))
      "k" 0 0 "metric" 1 1 = FetchOut.jsonRaise (sleepSeq 1 1) := rfl

example :
    fetch_current_weather (fun _ => AttemptOutcome.transportErr)
      "k" 0 0 "metric" 2 1 = FetchOut.transportRaise (sleepSeq 1 2) := rfl

example :
    fetch_current_weather (fun _ => AttemptOutcome.resp 401 (BodyParse.fail "denied"))
      "k" 0 0 "metric" 2 1 =
    FetchOut.ret
      { http_status := 401, payload := Json.obj [("raw_text", Json.str "denied")],
        request_params := { lat := 0, lon := 0, appid := "k", units := "metric" },
        data_timestamp := none } [] := rfl

/-!
## Repository (`weather_pipeline/load.py`)

The three tables this core writes are modelled as lists of rows inside a
`DB` record; `dim.location` is read-only to the core and not part of the
mutable state.  Each `pg_*` function is one connect-act-commit unit taking
the database state (and, where the SQL reads the clock, `now`) and
returning the new state.  Store-generated `ingestion_id` values are
modelled as the raw table's row index at insert time (append-only, so
indices are stable and unique).
-/

/-- One row of `raw.weather_api_responses`. -/
structure RawRow where
  ingestion_id : ℕ
  endpoint : String
  location_id : ℤ
  location_key : String
  request_params : ReqParams
  http_status : ℕ
  data_timestamp : Option ℤ
  payload : List (String × Json)
  ingested_at : ℤ

/-- One row of `mart.weather_observation`. -/
structure ObsRow where
  location_id : ℤ
  observed_at : ℤ
  temp_c : Json
  feels_like_c : Json
  humidity_pct : Json
  pressure_hpa : Json
  wind_speed_mps : Json
  wind_deg : Json
  clouds_pct : Json
  visibility_m : Json
  rain_1h_mm : Json
  snow_1h_mm : Json
  weather_main : Json
  weather_description : Json
  ingested_at : ℤ
  source_ingestion_id : ℕ

/-- One row of `mart.weather_latest`. -/
structure LatestRow where
  location_id : ℤ
  observed_at : ℤ
  temp_c : Json
  feels_like_c : Json
  humidity_pct : Json
  pressure_hpa : Json
  wind_speed_mps : Json
  wind_deg : Json
  clouds_pct : Json
  visibility_m : Json
  rain_1h_mm : Json
  snow_1h_mm : Json
  weather_main : Json
  weather_description : Json
  updated_at : ℤ

/-- The persisted state this core mutates. -/
structure DB where
  raw : List RawRow
  obs : List ObsRow
  latest : List LatestRow

/-- `INSERT ... ON CONFLICT (key) DO UPDATE SET <all columns> = EXCLUDED.*`
against a table with a unique index on `key`: when a row with the new
row's key exists it is overwritten in place, otherwise the new row is
appended.  `k` is the conflict key of `new`. -/
def keyedUpsert {α κ : Type} [DecidableEq κ] (key : α → κ) (l : List α)
    (k : κ) (new : α) : List α :=
  if ∃ x ∈ l, key x = k then l.map (fun x => if key x = k then new else x)
  else l ++ [new]

/-- `pg_insert_raw_response` from `load.py`: append one row to
`raw.weather_api_responses` and return the generated `ingestion_id`. -/
def pg_insert_raw_response (db : DB) (endpoint : String) (location_id : ℤ)
    (location_key : String) (request_params : ReqParams) (http_status : ℕ)
    (data_timestamp : Option ℤ) (payload : List (String × Json)) (now : ℤ) :
    DB × ℕ :=
  let id := db.raw.length
  ({ db with
      raw := db.raw ++
        [{ ingestion_id := id, endpoint := endpoint, location_id := location_id,
           location_key := location_key, request_params := request_params,
           http_status := http_status, data_timestamp := data_timestamp,
           payload := payload, ingested_at := now }] }, id)

/-- How `pg_upsert_weather_observation` can raise: the explicit
`RuntimeError` at `load.py:124` when no raw row matches, or an exception
propagating out of `normalize_current_weather_payload`. -/
inductive UpsertError where
  | notFound
  | normalization (e : NormError)
deriving DecidableEq

/-- The curated row written by `pg_upsert_weather_observation` from the raw
row `raw` it re-read and the normalizer output `n`. -/
def mkObsRow (raw : RawRow) (ingestion_id : ℕ) (n : Normalized) : ObsRow :=
  { location_id := raw.location_id
    observed_at := n.observed_at
    temp_c := n.temp_c
    feels_like_c := n.feels_like_c
    humidity_pct := n.humidity_pct
    pressure_hpa := n.pressure_hpa
    wind_speed_mps := n.wind_speed_mps
    wind_deg := n.wind_deg
    clouds_pct := n.clouds_pct
    visibility_m := n.visibility_m
    rain_1h_mm := n.rain_1h_mm
    snow_1h_mm := n.snow_1h_mm
    weather_main := n.weather_main
    weather_description := n.weather_description
    ingested_at := raw.ingested_at
    source_ingestion_id := ingestion_id }

/-- The conflict key of `mart.weather_observation`:
`(location_id, observed_at)`. -/
def obsKey (r : ObsRow) : ℤ × ℤ := (r.location_id, r.observed_at)

/-- `pg_upsert_weather_observation` from `load.py`: re-read the raw row by
`ingestion_id`, normalize its payload, and insert-or-overwrite into
`mart.weather_observation` keyed by `(location_id, observed_at)`.  The
returned rowcount is 1 for both the insert and the update case, as
psycopg2 reports for `INSERT .. ON CONFLICT`. -/
def pg_upsert_weather_observation (db : DB) (ingestion_id : ℕ) :
    Except UpsertError (DB × ℕ) :=
  match db.raw.find? (fun r => r.ingestion_id == ingestion_id) with
  | none => Except.error UpsertError.notFound
  | some raw =>
    match normalize_current_weather_payload raw.payload with
    | Except.error e => Except.error (UpsertError.normalization e)
    | Except.ok n =>
      Except.ok
        ({ db with
            obs := keyedUpsert obsKey db.obs (raw.location_id, n.observed_at)
              (mkObsRow raw ingestion_id n) }, 1)

/-- One step of `SELECT DISTINCT ON (location_id) ... ORDER BY location_id,
observed_at DESC`: keep, per location, the row with the greatest
`observed_at` seen so far (on an exact tie the earlier row is kept; the
SQL tie-break is arbitrary, and ties cannot occur under the table's unique
`(location_id, observed_at)` index). -/
def stepBest (acc : List ObsRow) (r : ObsRow) : List ObsRow :=
  if ∃ s ∈ acc, s.location_id = r.location_id then
    acc.map (fun s =>
      if s.location_id = r.location_id ∧ s.observed_at < r.observed_at then r else s)
  else acc ++ [r]

/-- The `SELECT DISTINCT ON (location_id) ... ORDER BY location_id,
observed_at DESC` source query of `pg_refresh_latest`: one row per
location present in `mart.weather_observation`, the one with maximal
`observed_at`. -/
def pickLatestPerLocation (obs : List ObsRow) : List ObsRow :=
  obs.foldl stepBest []

/-- The `mart.weather_latest` row produced for one selected observation,
with `updated_at = NOW()`. -/
def toLatest (r : ObsRow) (now : ℤ) : LatestRow :=
  { location_id := r.location_id
    observed_at := r.observed_at
    temp_c := r.temp_c
    feels_like_c := r.feels_like_c
    humidity_pct := r.humidity_pct
    pressure_hpa := r.pressure_hpa
    wind_speed_mps := r.wind_speed_mps
    wind_deg := r.wind_deg
    clouds_pct := r.clouds_pct
    visibility_m := r.visibility_m
    rain_1h_mm := r.rain_1h_mm
    snow_1h_mm := r.snow_1h_mm
    weather_main := r.weather_main
    weather_description := r.weather_description
    updated_at := now }

/-- The conflict key of `mart.weather_latest`: `location_id` alone. -/
def latestKey (r : LatestRow) : ℤ := r.location_id

/-- `pg_refresh_latest` from `load.py`: upsert, for each location present
in `mart.weather_observation`, its most recent observation into
`mart.weather_latest` (keyed by `location_id`).  Note the SQL only
inserts/updates; it never deletes rows of `mart.weather_latest`. -/
def pg_refresh_latest (db : DB) (now : ℤ) : DB :=
  { db with
      latest :=
        (pickLatestPerLocation db.obs).foldl
          (fun acc r => keyedUpsert latestKey acc r.location_id (toLatest r now))
          db.latest }

/-- `SELECT MAX(observed_at) FROM mart.weather_observation`: `NULL` on an
empty table. -/
def maxObserved : List ObsRow → Option ℤ
  | [] => none
  | r :: rs =>
    some
      (match maxObserved rs with
       | none => r.observed_at
       | some m => max r.observed_at m)

/-- The three `ValueError` sites of `pg_dq_freshness_and_rowcount`. -/
inductive DQError where
  | rowcount
  | noObservations
  | stale
deriving DecidableEq

/-- `pg_dq_freshness_and_rowcount` from `load.py`: read-then-decide checks;
`max_lag_minutes` is compared against a lag measured in seconds.  The
database state is returned unchanged on success. -/
def pg_dq_freshness_and_rowcount (db : DB) (expected_locations : ℤ)
    (max_lag_minutes : ℤ) (now : ℤ) : Except DQError DB :=
  let latest_count : ℤ := db.latest.length
  let max_observed := maxObserved db.obs
  if latest_count < max 1 expected_locations then Except.error DQError.rowcount
  else
    match max_observed with
    | none => Except.error DQError.noObservations
    | some m =>
      if max_lag_minutes * 60 < now - m then Except.error DQError.stale
      else Except.ok db

/-!
## DAG wiring (`dags/weather_ingestion_hourly.py`)

For a run with `n` active locations, the task instances of
`weather_ingestion_hourly` and the upstream edges induced by its XCom
dataflow.  `get_locations` returns the location list; `extract_and_load_raw`
is dynamically mapped over it; `transform_and_upsert_curated` is mapped over
the extract results; `dq_checks(curated)` consumes the whole mapped result
list.  `refresh_latest()` is invoked with no arguments and is chained to
nothing, so the source gives it no upstream edges.
-/

inductive WTask (n : ℕ) where
  | get_locations
  | extract_and_load_raw (i : Fin n)
  | transform_and_upsert_curated (i : Fin n)
  | dq_checks
  | refresh_latest
deriving DecidableEq

/-- The direct upstream tasks of each task instance, as wired at
`weather_ingestion_hourly.py:124-128`. -/
def upstreams {n : ℕ} : WTask n → List (WTask n)
  | WTask.get_locations => []
  | WTask.extract_and_load_raw _ => [WTask.get_locations]
  | WTask.transform_and_upsert_curated i => [WTask.extract_and_load_raw i]
  | WTask.dq_checks => (List.finRange n).map WTask.transform_and_upsert_curated
  | WTask.refresh_latest => []

/-- A schedule (total execution order chosen by the external scheduler)
respects the DAG when every task listed runs after all of its upstream
tasks. -/
def RespectsDeps {n : ℕ} (order : List (WTask n)) : Prop :=
  ∀ t ∈ order, ∀ u ∈ upstreams t,
    u ∈ order ∧ order.indexOf u < order.indexOf t

instance {n : ℕ} (order : List (WTask n)) : Decidable (RespectsDeps order) :=
  decidable_of_iff
    (∀ t ∈ order, ∀ u ∈ upstreams t,
      u ∈ order ∧ order.indexOf u < order.indexOf t)
    Iff.rfl

/-- `expected_locations = len(curated_results)` from the `dq_checks` task. -/
def dqExpectedLocations {β : Type} (curated_results : List β) : ℕ :=
  curated_results.length

/-- The XCom dataflow of the DAG: `raw_metas = extract_and_load_raw.expand(
loc=locations)` then `curated = transform_and_upsert_curated.expand(
meta=raw_metas)` produce one element per location, whatever the two
per-location task bodies `f` and `g` compute. -/
def curatedResults {α β γ : Type} (locations : List α) (f : α → β)
    (g : β → γ) : List γ :=
  (locations.map f).map g

/-- A dependency-respecting schedule of the DAG with one location in which
`refresh_latest` runs before the whole per-location chain: the source
gives `refresh_latest` no upstream edges. -/
def refreshFirstOrder : List (WTask 1) :=
  [WTask.refresh_latest, WTask.get_locations, WTask.extract_and_load_raw 0,
   WTask.transform_and_upsert_curated 0, WTask.dq_checks]

/-!
## State invariants and reachability

`mart.weather_observation` carries a unique index on
`(location_id, observed_at)` and `mart.weather_latest` one on
`location_id` (both required for the source's `ON CONFLICT` clauses); the
core's own operations, starting from empty tables, maintain both, and
never put a `mart.weather_latest` row in place for a location that has no
observation.
-/

/-- Unique-index invariant of `mart.weather_observation`. -/
def ObsKeysDistinct (obs : List ObsRow) : Prop :=
  obs.Pairwise (fun a b => obsKey a ≠ obsKey b)

/-- Unique-index invariant of `mart.weather_latest`. -/
def LatestLocsDistinct (ls : List LatestRow) : Prop :=
  ls.Pairwise (fun a b => a.location_id ≠ b.location_id)

/-- The location has at least one curated observation. -/
def HasObs (obs : List ObsRow) (loc : ℤ) : Prop :=
  ∃ r ∈ obs, r.location_id = loc

/-- The persistent-state invariant maintained by the repository
operations. -/
def DBInv (db : DB) : Prop :=
  ObsKeysDistinct db.obs ∧ LatestLocsDistinct db.latest ∧
    ∀ l ∈ db.latest, HasObs db.obs l.location_id

/-- Database states reachable from empty tables through this core's write
operations (`pg_dq_freshness_and_rowcount` reads only). -/
inductive Reachable : DB → Prop where
  | empty : Reachable { raw := [], obs := [], latest := [] }
  | insertRaw (db : DB) (endpoint : String) (location_id : ℤ)
      (location_key : String) (request_params : ReqParams) (http_status : ℕ)
      (data_timestamp : Option ℤ) (payload : List (String × Json)) (now : ℤ) :
      Reachable db →
      Reachable (pg_insert_raw_response db endpoint location_id location_key
        request_params http_status data_timestamp payload now).1
  | upsert (db db' : DB) (ingestion_id : ℕ) (c : ℕ) : Reachable db →
      pg_upsert_weather_observation db ingestion_id = Except.ok (db', c) →
      Reachable db'
  | refresh (db : DB) (now : ℤ) : Reachable db →
      Reachable (pg_refresh_latest db now)

/-- The specification's failure condition for the data-quality gate:
(a) LatestSnapshot has fewer rows than `max(1, expected_location_count)`,
or (b) there are no Observations at all, or (c) the lag from the maximal
`observed_at` (stated here as: some observation at least as recent as all
others) to `now` exceeds `max_lag` (minutes, against a lag in seconds). -/
def DQFailCondition (db : DB) (expected_locations max_lag_minutes now : ℤ) :
    Prop :=
  (db.latest.length : ℤ) < max 1 expected_locations ∨ db.obs = [] ∨
    ∃ r ∈ db.obs, (∀ s ∈ db.obs, s.observed_at ≤ r.observed_at) ∧
      max_lag_minutes * 60 < now - r.observed_at

/-- The observation rows for one location. -/
def locFilterObs (l : List ObsRow) (loc : ℤ) : List ObsRow :=
  l.filter (fun s => decide (s.location_id = loc))

/-- The latest-snapshot rows for one location. -/
def locFilterLatest (l : List LatestRow) (loc : ℤ) : List LatestRow :=
  l.filter (fun s => decide (s.location_id = loc))

/-- Invariant of the fold implementing `SELECT DISTINCT ON (location_id)
... ORDER BY location_id, observed_at DESC`: after processing the rows of
`processed`, the accumulator holds, per location, no row when the location
does not occur in `processed`, and exactly one row — carrying the maximal
`observed_at` among that location's processed rows — when it does. -/
def PickInv (processed acc : List ObsRow) : Prop :=
  (∀ loc : ℤ, ¬ HasObs processed loc → locFilterObs acc loc = []) ∧
  (∀ loc : ℤ, HasObs processed loc →
    ∃ s : ObsRow, locFilterObs acc loc = [s] ∧
      (∃ r ∈ processed, r.location_id = loc ∧ r.observed_at = s.observed_at) ∧
      (∀ r ∈ processed, r.location_id = loc → r.observed_at ≤ s.observed_at))

/-!
### Concrete fixtures used by the witness theorems
-/

/-- A curated observation row for location 7 at epoch second 1000, all
optional columns null. -/
def sampleObsRow : ObsRow :=
  { location_id := 7, observed_at := 1000, temp_c := Json.null,
    feels_like_c := Json.null, humidity_pct := Json.null,
    pressure_hpa := Json.null, wind_speed_mps := Json.null,
    wind_deg := Json.null, clouds_pct := Json.null, visibility_m := Json.null,
    rain_1h_mm := Json.null, snow_1h_mm := Json.null,
    weather_main := Json.null, weather_description := Json.null,
    ingested_at := 1000, source_ingestion_id := 0 }

/-- A latest-snapshot row for location 7 at epoch second 1000. -/
def sampleLatestRow : LatestRow :=
  { location_id := 7, observed_at := 1000, temp_c := Json.null,
    feels_like_c := Json.null, humidity_pct := Json.null,
    pressure_hpa := Json.null, wind_speed_mps := Json.null,
    wind_deg := Json.null, clouds_pct := Json.null, visibility_m := Json.null,
    rain_1h_mm := Json.null, snow_1h_mm := Json.null,
    weather_main := Json.null, weather_description := Json.null,
    updated_at := 1000 }

/-- A database state on which every data-quality check passes for
`expected_locations = 1`, `max_lag_minutes = 180`, `now = 1000`. -/
def dqPassDB : DB := { raw := [], obs := [sampleObsRow], latest := [sampleLatestRow] }

/-- Request parameters used by fixtures. -/
def sampleParams : ReqParams := { lat := 1, lon := 2, appid := "k", units := "metric" }

/-- A raw-table row whose payload is the minimal valid payload for
location 7 observed at epoch second 100 with temperature 1. -/
def sampleRaw0 : RawRow :=
  { ingestion_id := 0, endpoint := "weather", location_id := 7,
    location_key := "loc7", request_params := sampleParams, http_status := 200,
    data_timestamp := some 100,
    payload := [("dt", Json.num 100), ("main", Json.obj [("temp", Json.num 1)])],
    ingested_at := 50 }

/-- A second raw-table row for the same location and the same observation
time, with a different temperature. -/
def sampleRaw1 : RawRow :=
  { ingestion_id := 1, endpoint := "weather", location_id := 7,
    location_key := "loc7", request_params := sampleParams, http_status := 200,
    data_timestamp := some 100,
    payload := [("dt", Json.num 100), ("main", Json.obj [("temp", Json.num 2)])],
    ingested_at := 60 }

/-- A database state holding the two conflicting raw rows and nothing
else. -/
def twoRawDB : DB := { raw := [sampleRaw0, sampleRaw1], obs := [], latest := [] }

/-- The normalizer's output on `sampleRaw0`'s payload. -/
def sampleNorm0 : Normalized :=
  { observed_at := 100, temp_c := Json.num 1, feels_like_c := Json.null,
    humidity_pct := Json.null, pressure_hpa := Json.null,
    wind_speed_mps := Json.null, wind_deg := Json.null, clouds_pct := Json.null,
    visibility_m := Json.null, rain_1h_mm := Json.null, snow_1h_mm := Json.null,
    weather_main := Json.null, weather_description := Json.null }

/-- The normalizer's output on `sampleRaw1`'s payload. -/
def sampleNorm1 : Normalized :=
  { observed_at := 100, temp_c := Json.num 2, feels_like_c := Json.null,
    humidity_pct := Json.null, pressure_hpa := Json.null,
    wind_speed_mps := Json.null, wind_deg := Json.null, clouds_pct := Json.null,
    visibility_m := Json.null, rain_1h_mm := Json.null, snow_1h_mm := Json.null,
    weather_main := Json.null, weather_description := Json.null }

/-- The state reached from empty tables by appending `sampleRaw0` and
upserting it into the curated table. -/
def oneObsDB : DB :=
  { raw := [sampleRaw0], obs := [mkObsRow sampleRaw0 0 sampleNorm0], latest := [] }

/-- A network in which the first two attempts return HTTP 503 and the
third returns HTTP 200 with an empty-object body. -/
def world503x2then200 : ℕ → AttemptOutcome := fun i =>
  if i < 2 then AttemptOutcome.resp 503 (BodyParse.ok Json.null)
  else AttemptOutcome.resp 200 (BodyParse.ok (Json.obj []))

/-- A network in which every attempt yields an HTTP 503 whose body is not
parseable JSON (for instance an HTML error page). -/
def world503badBody : ℕ → AttemptOutcome :=
  fun _ => AttemptOutcome.resp 503 (BodyParse.fail "html error page")

/-- A network in which the first attempt returns HTTP 500 and every later
attempt fails at transport level. -/
def world500thenTransport : ℕ → AttemptOutcome := fun i =>
  if i = 0 then AttemptOutcome.resp 500 (BodyParse.ok Json.null)
  else AttemptOutcome.transportErr

/-- The dependency-respecting schedule of the one-location DAG that runs
the per-location chain first. -/
def chainFirstOrder : List (WTask 1) :=
  [WTask.get_locations, WTask.extract_and_load_raw 0,
   WTask.transform_and_upsert_curated 0, WTask.dq_checks, WTask.refresh_latest]

/-!
## Normalizer lemmas
-/

theorem aget_eq_of_lookup {payload : List (String × Json)} {k : String}
    {v : Json} (h : payload.lookup k = some v) : aget payload k = v := by
  simp [aget, h]

theorem aget_eq_null_of_lookup_none {payload : List (String × Json)}
    {k : String} (h : payload.lookup k = none) : aget payload k = Json.null := by
  simp [aget, h]

/-- The success shape of the normalizer: whenever the `dt` value converts to
an epoch second `n`, the result is exactly the record read off the
payload. -/
theorem normalize_eq_ok (payload : List (String × Json)) (v : Json) (n : ℤ)
    (hv : aget payload "dt" = v)
    (hn : utc_dt_from_unix v = Except.ok (some n)) :
    normalize_current_weather_payload payload = Except.ok
      { observed_at := n
        temp_c := aget (asDict (aget payload "main")) "temp"
        feels_like_c := aget (asDict (aget payload "main")) "feels_like"
        humidity_pct := aget (asDict (aget payload "main")) "humidity"
        pressure_hpa := aget (asDict (aget payload "main")) "pressure"
        wind_speed_mps := aget (asDict (aget payload "wind")) "speed"
        wind_deg := aget (asDict (aget payload "wind")) "deg"
        clouds_pct := aget (asDict (aget payload "clouds")) "all"
        visibility_m := aget payload "visibility"
        rain_1h_mm := safe_get2 payload "rain" "1h"
        snow_1h_mm := safe_get2 payload "snow" "1h"
        weather_main :=
          match
            (match aget payload "weather" with
             | Json.arr (x :: _) =>
               match x with
               | Json.obj fields => some fields
               | _ => none
             | _ => none : Option (List (String × Json))) with
          | some w => aget w "main"
          | none => Json.null
        weather_description :=
          match
            (match aget payload "weather" with
             | Json.arr (x :: _) =>
               match x with
               | Json.obj fields => some fields
               | _ => none
             | _ => none : Option (List (String × Json))) with
          | some w => aget w "description"
          | none => Json.null } := by
  unfold normalize_current_weather_payload
  rw [hv, hn]

theorem normalize_eq_missingDt (payload : List (String × Json)) (v : Json)
    (hv : aget payload "dt" = v)
    (hn : utc_dt_from_unix v = Except.ok none) :
    normalize_current_weather_payload payload =
      Except.error NormError.missingDt := by
  unfold normalize_current_weather_payload
  rw [hv, hn]

theorem normalize_eq_dtConversion (payload : List (String × Json)) (v : Json)
    (hv : aget payload "dt" = v)
    (hn : utc_dt_from_unix v = Except.error ()) :
    normalize_current_weather_payload payload =
      Except.error NormError.dtConversion := by
  unfold normalize_current_weather_payload
  rw [hv, hn]

theorem utc_dt_from_unix_num (q : ℚ) :
    utc_dt_from_unix (Json.num q) = Except.ok (some (ratTruncToInt q)) := rfl

theorem utc_dt_from_unix_of_pyInt_none (v : Json) (hne : v ≠ Json.null)
    (h : pyIntOfJson v = none) : utc_dt_from_unix v = Except.error () := by
  cases v <;> simp_all [utc_dt_from_unix, pyIntOfJson]

/-- Claim C4: a present numeric `dt` makes `normalize` succeed with the
corresponding non-null `observed_at` (whatever the rest of the payload
holds), and an absent `dt` makes it fail with the missing-timestamp
`NormalizationError`. -/
theorem normalize_dt_required_and_sufficient :
    (∀ (payload : List (String × Json)) (q : ℚ),
        payload.lookup "dt" = some (Json.num q) →
        ∃ r, normalize_current_weather_payload payload = Except.ok r ∧
          r.observed_at = ratTruncToInt q)
  ∧ (∀ (payload : List (String × Json)) (z : ℤ),
        payload.lookup "dt" = some (Json.num (z : ℚ)) →
        ∃ r, normalize_current_weather_payload payload = Except.ok r ∧
          r.observed_at = z)
  ∧ (∀ payload : List (String × Json),
        payload.lookup "dt" = none →
        normalize_current_weather_payload payload =
          Except.error NormError.missingDt) := by
  refine ⟨?_, ?_, ?_⟩
  · intro payload q h
    exact ⟨_, normalize_eq_ok payload (Json.num q) (ratTruncToInt q)
      (aget_eq_of_lookup h) (utc_dt_from_unix_num q), rfl⟩
  · intro payload z h
    refine ⟨_, normalize_eq_ok payload (Json.num (z : ℚ)) z
      (aget_eq_of_lookup h) ?_, rfl⟩
    rw [utc_dt_from_unix_num]
    have : ratTruncToInt (z : ℚ) = z := by
      unfold ratTruncToInt
      rcases le_or_lt 0 (z : ℚ) with h0 | h0
      · rw [if_pos h0, Int.floor_intCast]
      · rw [if_neg (not_le.mpr h0), Int.ceil_intCast]
    rw [this]
  · intro payload h
    exact normalize_eq_missingDt payload Json.null
      (aget_eq_null_of_lookup_none h) rfl

/-- Witness for C4 at concrete inputs. -/
theorem normalize_dt_required_and_sufficient_witness :
    ([(("dt" : String), Json.num ((42 : ℤ) : ℚ))].lookup "dt"
        = some (Json.num ((42 : ℤ) : ℚ)))
  ∧ (∃ r, normalize_current_weather_payload [("dt", Json.num ((42 : ℤ) : ℚ))]
        = Except.ok r ∧ r.observed_at = 42)
  ∧ (([] : List (String × Json)).lookup "dt" = none)
  ∧ (normalize_current_weather_payload ([] : List (String × Json))
        = Except.error NormError.missingDt) :=
  ⟨rfl, normalize_dt_required_and_sufficient.2.1 _ 42 rfl, rfl,
    normalize_dt_required_and_sufficient.2.2 [] rfl⟩

/-- Claim C8: the end-to-end minimal payload (`dt = 1700000000`,
`main.temp = 10.5`, nothing else) normalizes to that instant, `temp_c =
10.5` and every other field null; and in general a payload without a
`main` sub-object gets null temperature, feels-like, humidity and
pressure, not an error. -/
theorem normalize_minimal_payload_and_missing_main :
    (normalize_current_weather_payload
        [("dt", Json.num 1700000000), ("main", Json.obj [("temp", Json.num 10.5)])]
      = Except.ok
        { observed_at := 1700000000
          temp_c := Json.num 10.5
          feels_like_c := Json.null
          humidity_pct := Json.null
          pressure_hpa := Json.null
          wind_speed_mps := Json.null
          wind_deg := Json.null
          clouds_pct := Json.null
          visibility_m := Json.null
          rain_1h_mm := Json.null
          snow_1h_mm := Json.null
          weather_main := Json.null
          weather_description := Json.null })
  ∧ (∀ (payload : List (String × Json)) (q : ℚ),
        payload.lookup "dt" = some (Json.num q) →
        payload.lookup "main" = none →
        ∃ r, normalize_current_weather_payload payload = Except.ok r ∧
          r.temp_c = Json.null ∧ r.feels_like_c = Json.null ∧
          r.humidity_pct = Json.null ∧ r.pressure_hpa = Json.null) := by
  constructor
  · rfl
  · intro payload q hdt hmain
    refine ⟨_, normalize_eq_ok payload (Json.num q) (ratTruncToInt q)
      (aget_eq_of_lookup hdt) (utc_dt_from_unix_num q), ?_, ?_, ?_, ?_⟩ <;>
      simp [asDict, aget, hmain]

/-- Witness for C8's universally quantified part at a concrete payload
without a `main` sub-object. -/
theorem normalize_minimal_payload_and_missing_main_witness :
    ([(("dt" : String), Json.num 5)].lookup "dt" = some (Json.num 5))
  ∧ ([(("dt" : String), Json.num 5)].lookup "main" = none)
  ∧ (∃ r, normalize_current_weather_payload [("dt", Json.num 5)] = Except.ok r ∧
      r.temp_c = Json.null ∧ r.feels_like_c = Json.null ∧
      r.humidity_pct = Json.null ∧ r.pressure_hpa = Json.null) :=
  ⟨rfl, rfl, normalize_minimal_payload_and_missing_main.2 _ 5 rfl rfl⟩

/-- Claim C10: a present `dt` whose value does not convert to an integer
fails with the conversion error, not the documented missing-timestamp
error; and a fractional numeric `dt` is silently truncated toward zero
rather than rejected. -/
theorem normalize_dt_conversion_behavior :
    (∀ (payload : List (String × Json)) (v : Json),
        payload.lookup "dt" = some v → v ≠ Json.null → pyIntOfJson v = none →
        normalize_current_weather_payload payload =
          Except.error NormError.dtConversion)
  ∧ NormError.dtConversion ≠ NormError.missingDt
  ∧ (∀ (payload : List (String × Json)) (q : ℚ),
        payload.lookup "dt" = some (Json.num q) →
        ∃ r, normalize_current_weather_payload payload = Except.ok r ∧
          r.observed_at = ratTruncToInt q) := by
  refine ⟨?_, by decide, ?_⟩
  · intro payload v h hne hpy
    exact normalize_eq_dtConversion payload v (aget_eq_of_lookup h)
      (utc_dt_from_unix_of_pyInt_none v hne hpy)
  · intro payload q h
    exact ⟨_, normalize_eq_ok payload (Json.num q) (ratTruncToInt q)
      (aget_eq_of_lookup h) (utc_dt_from_unix_num q), rfl⟩

/-- Witness for C10: a non-numeric string `dt` hits the conversion error,
and `dt = 10.9` truncates to observed_at `10`. -/
theorem normalize_dt_conversion_behavior_witness :
    ([(("dt" : String), Json.str "abc")].lookup "dt" = some (Json.str "abc"))
  ∧ pyIntOfJson (Json.str "abc") = none
  ∧ (normalize_current_weather_payload [("dt", Json.str "abc")]
      = Except.error NormError.dtConversion)
  ∧ (∃ r, normalize_current_weather_payload [("dt", Json.num 10.9)]
      = Except.ok r ∧ r.observed_at = 10) := by
  refine ⟨rfl, rfl,
    normalize_dt_conversion_behavior.1 _ _ rfl (fun h => Json.noConfusion h) rfl,
    ?_⟩
  obtain ⟨r, hok, hoat⟩ :=
    normalize_dt_conversion_behavior.2.2 [("dt", Json.num 10.9)] 10.9 rfl
  refine ⟨r, hok, ?_⟩
  rw [hoat]
  norm_num [ratTruncToInt]

/-!
## Data-quality gate (claim C7)
-/

theorem maxObserved_eq_none_iff (obs : List ObsRow) :
    maxObserved obs = none ↔ obs = [] := by
  cases obs <;> simp [maxObserved]

theorem maxObserved_spec (obs : List ObsRow) (m : ℤ)
    (h : maxObserved obs = some m) :
    (∃ r ∈ obs, r.observed_at = m) ∧ ∀ s ∈ obs, s.observed_at ≤ m := by
  induction obs generalizing m with
  | nil => simp [maxObserved] at h
  | cons r rs ih =>
    rw [maxObserved] at h
    cases hm : maxObserved rs with
    | none =>
      rw [hm] at h
      injection h with h
      have hmr : m = r.observed_at := by rw [← h]
      have hnil : rs = [] := (maxObserved_eq_none_iff rs).mp hm
      subst hnil
      subst hmr
      exact ⟨⟨r, by simp⟩, by simp⟩
    | some m' =>
      rw [hm] at h
      injection h with h
      have hmax : m = max r.observed_at m' := by rw [← h]
      obtain ⟨⟨r0, hr0, hoat⟩, hall⟩ := ih m' hm
      subst hmax
      constructor
      · rcases le_or_lt r.observed_at m' with hle | hlt
        · exact ⟨r0, by simp [hr0], by rw [hoat, max_eq_right hle]⟩
        · exact ⟨r, by simp, (max_eq_left hlt.le).symm⟩
      · intro s hs
        rcases List.mem_cons.mp hs with hsr | hsrs
        · rw [hsr]; exact le_max_left _ _
        · exact le_trans (hall s hsrs) (le_max_right _ _)

/-- Claim C7: `check_data_quality` fails exactly when LatestSnapshot has
fewer than `max(1, expected_location_count)` rows, or there is no
observation at all, or the most recent observation is staler than
`max_lag`; otherwise it succeeds and leaves the persisted state
unchanged. -/
theorem dq_check_failure_characterization (db : DB)
    (expected_locations max_lag_minutes now : ℤ) :
    ((∃ e, pg_dq_freshness_and_rowcount db expected_locations max_lag_minutes
        now = Except.error e) ↔
      DQFailCondition db expected_locations max_lag_minutes now)
  ∧ (¬ DQFailCondition db expected_locations max_lag_minutes now →
      pg_dq_freshness_and_rowcount db expected_locations max_lag_minutes now
        = Except.ok db) := by
  simp only [pg_dq_freshness_and_rowcount, DQFailCondition]
  by_cases ha : (db.latest.length : ℤ) < max 1 expected_locations
  · rw [if_pos ha]
    exact ⟨⟨fun _ => Or.inl ha, fun _ => ⟨DQError.rowcount, rfl⟩⟩,
      fun hn => absurd (Or.inl ha) hn⟩
  · rw [if_neg ha]
    cases hm : maxObserved db.obs with
    | none =>
      have hnil := (maxObserved_eq_none_iff db.obs).mp hm
      exact ⟨⟨fun _ => Or.inr (Or.inl hnil),
        fun _ => ⟨DQError.noObservations, rfl⟩⟩,
        fun hn => absurd (Or.inr (Or.inl hnil)) hn⟩
    | some m =>
      dsimp only
      obtain ⟨⟨r0, hr0, hoat⟩, hall⟩ := maxObserved_spec db.obs m hm
      have hne : db.obs ≠ [] := by
        intro h
        rw [h] at hr0
        exact absurd hr0 (List.not_mem_nil r0)
      by_cases hl : max_lag_minutes * 60 < now - m
      · rw [if_pos hl]
        have hc : ∃ r ∈ db.obs, (∀ s ∈ db.obs, s.observed_at ≤ r.observed_at) ∧
            max_lag_minutes * 60 < now - r.observed_at := by
          refine ⟨r0, hr0, ?_, ?_⟩
          · intro s hs
            rw [hoat]
            exact hall s hs
          · rw [hoat]
            exact hl
        exact ⟨⟨fun _ => Or.inr (Or.inr hc), fun _ => ⟨DQError.stale, rfl⟩⟩,
          fun hn => absurd (Or.inr (Or.inr hc)) hn⟩
      · rw [if_neg hl]
        constructor
        · constructor
          · rintro ⟨e, he⟩
            exact absurd he (by simp)
          · rintro (h | h | ⟨r, hr, hrmax, hrlag⟩)
            · exact absurd h ha
            · exact absurd h hne
            · have h1 : r.observed_at ≤ m := hall r hr
              have h2 : m ≤ r.observed_at := by
                rw [← hoat]
                exact hrmax r0 hr0
              rw [le_antisymm h1 h2] at hrlag
              exact absurd hrlag hl
        · intro _
          rfl

/-- Witness for C7: on `dqPassDB` with `expected = 1`, `max_lag = 180`
minutes and `now = 1000`, no failure condition holds and the check returns
the unchanged state. -/
theorem dq_check_failure_characterization_witness :
    ¬ DQFailCondition dqPassDB 1 180 1000 ∧
      pg_dq_freshness_and_rowcount dqPassDB 1 180 1000 = Except.ok dqPassDB := by
  have hn : ¬ DQFailCondition dqPassDB 1 180 1000 := by
    rintro (h | h | ⟨r, hr, _, hlag⟩)
    · revert h
      decide
    · exact List.noConfusion h
    · have : r = sampleObsRow := by
        rcases List.mem_singleton.mp hr with h
        exact h
      rw [this] at hlag
      revert hlag
      decide
  exact ⟨hn, (dq_check_failure_characterization dqPassDB 1 180 1000).2 hn⟩

/-!
## Fetcher lemmas (claims C3, C5, C9)
-/

theorem fetchGo_step (world : ℕ → AttemptOutcome) (params : ReqParams)
    (max_retries : ℕ) (b : ℚ) (attempt rem : ℕ) (sleeps : List ℚ)
    (hlt : attempt < max_retries) (hr : retryableOutcome (world attempt)) :
    fetchGo world params max_retries b attempt (rem + 1) sleeps =
      fetchGo world params max_retries b (attempt + 1) rem
        (sleeps ++ [b * 2 ^ attempt]) := by
  rw [fetchGo]
  cases hw : world attempt with
  | transportErr =>
    dsimp only
    rw [if_pos hlt]
  | resp s body =>
    rw [hw] at hr
    dsimp only
    rw [if_pos ⟨hr, hlt⟩]

theorem fetchGo_prefix (world : ℕ → AttemptOutcome) (params : ReqParams)
    (b : ℚ) (k max_retries : ℕ) (hk : k ≤ max_retries)
    (hret : ∀ i < k, retryableOutcome (world i)) :
    fetchGo world params max_retries b 0 (max_retries + 1) [] =
      fetchGo world params max_retries b k (max_retries + 1 - k)
        (sleepSeq b k) := by
  induction k with
  | zero => simp [sleepSeq]
  | succ k ih =>
    rw [ih (by omega) (fun i hi => hret i (Nat.lt_succ_of_lt hi))]
    have hrem : max_retries + 1 - k = (max_retries - k) + 1 := by omega
    rw [hrem, fetchGo_step world params max_retries b k (max_retries - k)
      (sleepSeq b k) (by omega) (hret k (Nat.lt_succ_self k))]
    have h1 : max_retries - k = max_retries + 1 - (k + 1) := by omega
    have h2 : sleepSeq b k ++ [b * 2 ^ k] = sleepSeq b (k + 1) := by
      simp [sleepSeq, List.range_succ]
    rw [h1, h2]

theorem fetchGo_last_transport (world : ℕ → AttemptOutcome) (params : ReqParams)
    (max_retries : ℕ) (b : ℚ) (rem : ℕ) (sleeps : List ℚ)
    (hw : world max_retries = AttemptOutcome.transportErr) :
    fetchGo world params max_retries b max_retries (rem + 1) sleeps =
      FetchOut.transportRaise sleeps := by
  rw [fetchGo, hw]
  dsimp only
  rw [if_neg (lt_irrefl max_retries)]

theorem fetchGo_resp_noRetry_ok (world : ℕ → AttemptOutcome)
    (params : ReqParams) (max_retries : ℕ) (b : ℚ) (attempt rem : ℕ)
    (sleeps : List ℚ) (s : ℕ) (j : Json) (dts : Option ℤ)
    (hw : world attempt = AttemptOutcome.resp s (BodyParse.ok j))
    (h1 : ¬ (retryableStatus s ∧ attempt < max_retries))
    (h2 : ¬ (400 ≤ s ∧ ¬ retryableStatus s))
    (hdts : extract_data_timestamp j = Except.ok dts) :
    fetchGo world params max_retries b attempt (rem + 1) sleeps =
      FetchOut.ret
        { http_status := s, payload := j, request_params := params,
          data_timestamp := dts } sleeps := by
  rw [fetchGo]
  cases hw2 : world attempt with
  | transportErr =>
    rw [hw2] at hw
    exact absurd hw (fun h => AttemptOutcome.noConfusion h)
  | resp s2 body2 =>
    rw [hw2] at hw
    injection hw with hs hb
    subst hs
    subst hb
    dsimp only
    rw [if_neg h1, if_neg h2, hdts]

theorem fetchGo_resp_noRetry_badBody (world : ℕ → AttemptOutcome)
    (params : ReqParams) (max_retries : ℕ) (b : ℚ) (attempt rem : ℕ)
    (sleeps : List ℚ) (s : ℕ) (t : String)
    (hw : world attempt = AttemptOutcome.resp s (BodyParse.fail t))
    (h1 : ¬ (retryableStatus s ∧ attempt < max_retries))
    (h2 : ¬ (400 ≤ s ∧ ¬ retryableStatus s)) :
    fetchGo world params max_retries b attempt (rem + 1) sleeps =
      FetchOut.jsonRaise sleeps := by
  rw [fetchGo]
  cases hw2 : world attempt with
  | transportErr =>
    rw [hw2] at hw
    exact absurd hw (fun h => AttemptOutcome.noConfusion h)
  | resp s2 body2 =>
    rw [hw2] at hw
    injection hw with hs hb
    subst hs
    subst hb
    dsimp only
    rw [if_neg h1, if_neg h2]

/-- Claim C3 (amended): with all earlier attempts retryable failures, a
transport failure on the final attempt propagates as the re-raised fetch
error, while a retryable HTTP status on the final attempt returns normally
with that status — provided the body parses as JSON (and any `dt` field it
carries converts); an unparseable body instead propagates the JSON decode
error. -/
theorem fetch_exhaustion_asymmetry :
    (∀ (world : ℕ → AttemptOutcome) (api_key : String) (lat lon : ℚ)
        (units : String) (max_retries : ℕ) (b : ℚ),
        (∀ i < max_retries, retryableOutcome (world i)) →
        world max_retries = AttemptOutcome.transportErr →
        fetch_current_weather world api_key lat lon units max_retries b =
          FetchOut.transportRaise (sleepSeq b max_retries))
  ∧ (∀ (world : ℕ → AttemptOutcome) (api_key : String) (lat lon : ℚ)
        (units : String) (max_retries : ℕ) (b : ℚ) (s : ℕ) (j : Json)
        (dts : Option ℤ),
        (∀ i < max_retries, retryableOutcome (world i)) →
        world max_retries = AttemptOutcome.resp s (BodyParse.ok j) →
        retryableStatus s →
        extract_data_timestamp j = Except.ok dts →
        fetch_current_weather world api_key lat lon units max_retries b =
          FetchOut.ret
            { http_status := s, payload := j,
              request_params :=
                { lat := lat, lon := lon, appid := api_key, units := units },
              data_timestamp := dts } (sleepSeq b max_retries))
  ∧ (∀ (world : ℕ → AttemptOutcome) (api_key : String) (lat lon : ℚ)
        (units : String) (max_retries : ℕ) (b : ℚ) (s : ℕ) (t : String),
        (∀ i < max_retries, retryableOutcome (world i)) →
        world max_retries = AttemptOutcome.resp s (BodyParse.fail t) →
        retryableStatus s →
        fetch_current_weather world api_key lat lon units max_retries b =
          FetchOut.jsonRaise (sleepSeq b max_retries)) := by
  refine ⟨?_, ?_, ?_⟩
  · intro world api_key lat lon units max_retries b hret hw
    rw [fetch_current_weather,
      fetchGo_prefix world _ b max_retries max_retries le_rfl hret]
    have hrem : max_retries + 1 - max_retries = 0 + 1 := by omega
    rw [hrem, fetchGo_last_transport _ _ _ _ _ _ hw]
  · intro world api_key lat lon units max_retries b s j dts hret hw hs hdts
    rw [fetch_current_weather,
      fetchGo_prefix world _ b max_retries max_retries le_rfl hret]
    have hrem : max_retries + 1 - max_retries = 0 + 1 := by omega
    rw [hrem, fetchGo_resp_noRetry_ok _ _ _ _ _ _ _ _ _ _ hw
      (fun hc => lt_irrefl _ hc.2) (fun hc => hc.2 hs) hdts]
  · intro world api_key lat lon units max_retries b s t hret hw hs
    rw [fetch_current_weather,
      fetchGo_prefix world _ b max_retries max_retries le_rfl hret]
    have hrem : max_retries + 1 - max_retries = 0 + 1 := by omega
    rw [hrem, fetchGo_resp_noRetry_badBody _ _ _ _ _ _ _ _ _ hw
      (fun hc => lt_irrefl _ hc.2) (fun hc => hc.2 hs)]

/-- Counterexample to C3 as stated: every attempt is an HTTP 503 whose
body is not parseable JSON; retries exhaust on a retryable status, yet the
fetch does not return normally — the JSON decode error propagates. -/
theorem fetch_exhausted_retryable_unparseable_raises :
    retryableStatus 503
  ∧ fetch_current_weather world503badBody "k" 0 0 "metric" 1 1 =
      FetchOut.jsonRaise (sleepSeq 1 1)
  ∧ (fetch_current_weather world503badBody "k" 0 0 "metric" 1 1).isRet
      = false :=
  ⟨by decide, rfl, rfl⟩

/-- Witness for C3's amended theorem: first attempt HTTP 500, then
transport failures; with `max_retries = 2`, the run raises the transport
error after the backoff sleeps. -/
theorem fetch_exhaustion_asymmetry_witness :
    fetch_current_weather world500thenTransport "k" 0 0 "metric" 2 1 =
      FetchOut.transportRaise (sleepSeq 1 2) :=
  fetch_exhaustion_asymmetry.1 world500thenTransport "k" 0 0 "metric" 2 1
    (by decide) rfl

/-- Claim C5: retryable statuses and transport failures are retried with
synchronous exponential backoff sleeps `backoff_base * 2 ^ attempt`; a
success at attempt `k` returns that response after exactly the `k` sleeps
`backoff_base * 2 ^ 0, ..., backoff_base * 2 ^ (k-1)`; in particular two
503s then a 200 sleep `backoff_base * 1` then `backoff_base * 2`. -/
theorem fetch_retry_backoff_sleeps :
    (∀ (world : ℕ → AttemptOutcome) (api_key : String) (lat lon : ℚ)
        (units : String) (k max_retries : ℕ) (b : ℚ) (j : Json)
        (dts : Option ℤ),
        k ≤ max_retries →
        (∀ i < k, retryableOutcome (world i)) →
        world k = AttemptOutcome.resp 200 (BodyParse.ok j) →
        extract_data_timestamp j = Except.ok dts →
        fetch_current_weather world api_key lat lon units max_retries b =
          FetchOut.ret
            { http_status := 200, payload := j,
              request_params :=
                { lat := lat, lon := lon, appid := api_key, units := units },
              data_timestamp := dts } (sleepSeq b k))
  ∧ ∀ b : ℚ, sleepSeq b 2 = [b * 1, b * 2] := by
  constructor
  · intro world api_key lat lon units k max_retries b j dts hk hret hw hdts
    rw [fetch_current_weather, fetchGo_prefix world _ b k max_retries hk hret]
    have hrem : max_retries + 1 - k = (max_retries - k) + 1 := by omega
    rw [hrem, fetchGo_resp_noRetry_ok _ _ _ _ _ _ _ _ _ _ hw
      (fun hc => absurd hc.1 (by decide)) (fun hc => absurd hc.1 (by decide))
      hdts]
  · intro b
    simp [sleepSeq, List.range_succ, pow_succ]

/-- Witness for C5: the `[503, 503, 200]` scenario with `max_retries = 3`
returns status 200 after exactly the sleeps `b*1` then `b*2` (here
`b = 1`). -/
theorem fetch_retry_backoff_sleeps_witness :
    (fetch_current_weather world503x2then200 "k" 1 2 "metric" 3 1 =
      FetchOut.ret
        { http_status := 200, payload := Json.obj [],
          request_params := sampleParams, data_timestamp := none }
        (sleepSeq 1 2))
  ∧ sleepSeq 1 2 = [1 * 1, 1 * 2] :=
  ⟨fetch_retry_backoff_sleeps.1 world503x2then200 "k" 1 2 "metric" 2 3 1
      (Json.obj []) none (by omega) (by decide) rfl rfl,
    fetch_retry_backoff_sleeps.2 1⟩

theorem fetchGo_no_runtime (world : ℕ → AttemptOutcome) (params : ReqParams)
    (max_retries : ℕ) (b : ℚ) :
    ∀ (rem attempt : ℕ) (sleeps : List ℚ),
      attempt + rem = max_retries + 1 → 0 < rem →
      (fetchGo world params max_retries b attempt rem sleeps).isRuntimeRaise
        = false := by
  intro rem
  induction rem with
  | zero =>
    intro attempt sleeps _ h0
    exact absurd h0 (lt_irrefl 0)
  | succ rem ih =>
    intro attempt sleeps hsum _
    rw [fetchGo]
    cases hw : world attempt with
    | transportErr =>
      dsimp only
      by_cases hlt : attempt < max_retries
      · rw [if_pos hlt]
        exact ih (attempt + 1) _ (by omega) (by omega)
      · rw [if_neg hlt]
        rfl
    | resp s body =>
      dsimp only
      by_cases hc : retryableStatus s ∧ attempt < max_retries
      · rw [if_pos hc]
        exact ih (attempt + 1) _ (by omega) (by omega)
      · rw [if_neg hc]
        by_cases h4 : 400 ≤ s ∧ ¬ retryableStatus s
        · rw [if_pos h4]
          rfl
        · rw [if_neg h4]
          cases body with
          | fail t => rfl
          | ok j =>
            dsimp only
            cases hdts : extract_data_timestamp j <;> rfl

/-- Claim C9: every run of the fetcher returns or raises from within the
retry loop; the trailing `RuntimeError` after the loop is unreachable. -/
theorem fetch_runtime_error_unreachable (world : ℕ → AttemptOutcome)
    (api_key : String) (lat lon : ℚ) (units : String) (max_retries : ℕ)
    (b : ℚ) :
    (fetch_current_weather world api_key lat lon units max_retries
        b).isRuntimeRaise = false :=
  fetchGo_no_runtime world
    { lat := lat, lon := lon, appid := api_key, units := units } max_retries b
    (max_retries + 1) 0 [] (by omega) (by omega)


/-!
## Upsert lemmas (claim C6)
-/

theorem filter_map_upsert_nil {α κ : Type} [DecidableEq κ] (key : α → κ)
    (k : κ) (new : α) (l : List α) (hnone : ∀ x ∈ l, key x ≠ k) :
    (l.map (fun x => if key x = k then new else x)).filter
      (fun x => decide (key x = k)) = [] := by
  induction l with
  | nil => rfl
  | cons a l ih =>
    have ha : key a ≠ k := hnone a (by simp)
    have ihl := ih (fun x hx => hnone x (by simp [hx]))
    simp [List.filter_cons, ha, ihl]

theorem filter_upsert_map_ne {α κ : Type} [DecidableEq κ] (key : α → κ)
    (k : κ) (new : α) (hnew : key new = k) (l : List α) (k' : κ)
    (hne : k' ≠ k) :
    (l.map (fun x => if key x = k then new else x)).filter
      (fun x => decide (key x = k')) =
      l.filter (fun x => decide (key x = k')) := by
  induction l with
  | nil => rfl
  | cons a l ih =>
    by_cases hak : key a = k
    · have h1 : key new ≠ k' := by rw [hnew]; exact fun h => hne h.symm
      have h2 : key a ≠ k' := by rw [hak]; exact fun h => hne h.symm
      simp [List.filter_cons, hak, h1, h2, ih, Ne.symm hne]
    · simp only [List.map_cons, if_neg hak]
      by_cases hak' : key a = k'
      · simp [List.filter_cons, hak', ih]
      · simp [List.filter_cons, hak', ih]

theorem filter_upsert_map_mem {α κ : Type} [DecidableEq κ] (key : α → κ)
    (k : κ) (new : α) (hnew : key new = k) (l : List α)
    (hdist : l.Pairwise (fun a b => key a ≠ key b))
    (hex : ∃ x ∈ l, key x = k) :
    (l.map (fun x => if key x = k then new else x)).filter
      (fun x => decide (key x = k)) = [new] := by
  induction l with
  | nil => simp at hex
  | cons a l ih =>
    obtain ⟨ha, hd⟩ := List.pairwise_cons.mp hdist
    by_cases hak : key a = k
    · have hnone : ∀ x ∈ l, key x ≠ k := by
        intro x hx hxk
        exact ha x hx (by rw [hak, hxk])
      simp [List.filter_cons, hak, hnew,
        filter_map_upsert_nil key k new l hnone]
    · obtain ⟨x, hx, hxk⟩ := hex
      rcases List.mem_cons.mp hx with hxa | hxl
      · rw [hxa] at hxk
        exact absurd hxk hak
      · have ihl := ih hd ⟨x, hxl, hxk⟩
        simp [List.filter_cons, hak, ihl]

theorem keyedUpsert_filter_eq {α κ : Type} [DecidableEq κ] (key : α → κ)
    (k : κ) (new : α) (l : List α) (hnew : key new = k)
    (hdist : l.Pairwise (fun a b => key a ≠ key b)) (k' : κ) :
    (keyedUpsert key l k new).filter (fun x => decide (key x = k')) =
      if k' = k then [new] else l.filter (fun x => decide (key x = k')) := by
  unfold keyedUpsert
  by_cases hex : ∃ x ∈ l, key x = k
  · rw [if_pos hex]
    by_cases hk' : k' = k
    · subst hk'
      rw [if_pos rfl, filter_upsert_map_mem key k' new hnew l hdist hex]
    · rw [if_neg hk', filter_upsert_map_ne key k new hnew l k' hk']
  · rw [if_neg hex, List.filter_append]
    by_cases hk' : k' = k
    · subst hk'
      have h0 : l.filter (fun x => decide (key x = k')) = [] := by
        rw [List.filter_eq_nil_iff]
        intro x hx
        simp only [decide_eq_true_eq]
        exact fun h => hex ⟨x, hx, h⟩
      rw [if_pos rfl, h0]
      simp [hnew]
    · rw [if_neg hk']
      have h1 : key new ≠ k' := by rw [hnew]; exact fun h => hk' h.symm
      simp [h1]

theorem keyedUpsert_pairwise {α κ : Type} [DecidableEq κ] (key : α → κ)
    (k : κ) (new : α) (l : List α) (hnew : key new = k)
    (hdist : l.Pairwise (fun a b => key a ≠ key b)) :
    (keyedUpsert key l k new).Pairwise (fun a b => key a ≠ key b) := by
  unfold keyedUpsert
  by_cases hex : ∃ x ∈ l, key x = k
  · rw [if_pos hex, List.pairwise_map]
    have hkey : ∀ x, key (if key x = k then new else x) = key x := by
      intro x
      by_cases hx : key x = k
      · rw [if_pos hx, hnew, hx]
      · rw [if_neg hx]
    refine hdist.imp ?_
    intro a b hab
    rw [hkey a, hkey b]
    exact hab
  · rw [if_neg hex, List.pairwise_append]
    refine ⟨hdist, List.pairwise_singleton _ _, ?_⟩
    intro a ha b hb
    rw [List.mem_singleton] at hb
    subst hb
    rw [hnew]
    exact fun h => hex ⟨a, ha, h⟩

theorem keyedUpsert_key_elem_eq {α κ : Type} [DecidableEq κ] (key : α → κ)
    (k : κ) (new : α) (l : List α) :
    ∀ x ∈ keyedUpsert key l k new, key x = k → x = new := by
  intro x hx hxk
  unfold keyedUpsert at hx
  by_cases hex : ∃ y ∈ l, key y = k
  · rw [if_pos hex] at hx
    obtain ⟨y, hy, hfy⟩ := List.mem_map.mp hx
    by_cases hyk : key y = k
    · rw [if_pos hyk] at hfy
      exact hfy.symm
    · rw [if_neg hyk] at hfy
      rw [← hfy] at hxk
      exact absurd hxk hyk
  · rw [if_neg hex] at hx
    rcases List.mem_append.mp hx with hxl | hxn
    · exact absurd ⟨x, hxl, hxk⟩ hex
    · rw [List.mem_singleton] at hxn
      exact hxn

theorem keyedUpsert_mem {α κ : Type} [DecidableEq κ] (key : α → κ)
    (k : κ) (new : α) (l : List α) (x : α)
    (hx : x ∈ keyedUpsert key l k new) : x ∈ l ∨ x = new := by
  unfold keyedUpsert at hx
  by_cases hex : ∃ y ∈ l, key y = k
  · rw [if_pos hex] at hx
    obtain ⟨y, hy, hfy⟩ := List.mem_map.mp hx
    by_cases hyk : key y = k
    · rw [if_pos hyk] at hfy
      exact Or.inr hfy.symm
    · rw [if_neg hyk] at hfy
      exact Or.inl (hfy ▸ hy)
  · rw [if_neg hex] at hx
    rcases List.mem_append.mp hx with h | h
    · exact Or.inl h
    · rw [List.mem_singleton] at h
      exact Or.inr h

theorem keyedUpsert_exists_key {α κ : Type} [DecidableEq κ] (key : α → κ)
    (k : κ) (new : α) (l : List α) (hnew : key new = k) :
    ∃ x ∈ keyedUpsert key l k new, key x = k := by
  unfold keyedUpsert
  by_cases hex : ∃ y ∈ l, key y = k
  · rw [if_pos hex]
    obtain ⟨y, hy, hyk⟩ := hex
    exact ⟨new, List.mem_map.mpr ⟨y, hy, by rw [if_pos hyk]⟩, hnew⟩
  · rw [if_neg hex]
    exact ⟨new, by simp, hnew⟩

theorem keyedUpsert_idem {α κ : Type} [DecidableEq κ] (key : α → κ)
    (k : κ) (new : α) (l : List α) (hnew : key new = k) :
    keyedUpsert key (keyedUpsert key l k new) k new =
      keyedUpsert key l k new := by
  have hexu := keyedUpsert_exists_key key k new l hnew
  have hmap : (keyedUpsert key l k new).map
      (fun x => if key x = k then new else x) = keyedUpsert key l k new := by
    have hid : ∀ x ∈ keyedUpsert key l k new,
        (if key x = k then new else x) = x := by
      intro x hx
      by_cases hxk : key x = k
      · rw [if_pos hxk]
        exact (keyedUpsert_key_elem_eq key k new l x hx hxk).symm
      · rw [if_neg hxk]
    calc (keyedUpsert key l k new).map (fun x => if key x = k then new else x)
        = (keyedUpsert key l k new).map id := List.map_congr_left hid
      _ = keyedUpsert key l k new := List.map_id _
  exact (if_pos hexu).trans hmap

theorem keyedUpsert_preserves_proj {α κ μ : Type} [DecidableEq κ]
    (key : α → κ) (k : κ) (new : α) (g : α → μ) (l : List α)
    (hg : ∀ x, key x = k → g x = g new) (v : μ)
    (hv : ∃ x ∈ l, g x = v) : ∃ x ∈ keyedUpsert key l k new, g x = v := by
  obtain ⟨x, hx, hgx⟩ := hv
  unfold keyedUpsert
  by_cases hex : ∃ y ∈ l, key y = k
  · rw [if_pos hex]
    refine ⟨if key x = k then new else x, List.mem_map.mpr ⟨x, hx, rfl⟩, ?_⟩
    by_cases hxk : key x = k
    · rw [if_pos hxk, ← hg x hxk, hgx]
    · rw [if_neg hxk, hgx]
  · rw [if_neg hex]
    exact ⟨x, List.mem_append.mpr (Or.inl hx), hgx⟩

/-- Claim C6: upserting two raw rows that normalize to the same
`(location_id, observed_at)` key leaves exactly one curated row for that
key, all of whose derived fields come from the second call (last-write-
wins, no merge); and re-running the upsert for the same raw row leaves the
state unchanged (idempotence under retries of the same unit of work). -/
theorem upsert_curated_last_write_wins_idempotent (db : DB) (id1 id2 : ℕ)
    (r1 r2 : RawRow) (n1 n2 : Normalized)
    (h1 : db.raw.find? (fun r => r.ingestion_id == id1) = some r1)
    (h2 : db.raw.find? (fun r => r.ingestion_id == id2) = some r2)
    (hn1 : normalize_current_weather_payload r1.payload = Except.ok n1)
    (hn2 : normalize_current_weather_payload r2.payload = Except.ok n2)
    (hloc : r1.location_id = r2.location_id)
    (hoat : n1.observed_at = n2.observed_at)
    (hdist : ObsKeysDistinct db.obs) :
    ∃ db1 db2 : DB,
      pg_upsert_weather_observation db id1 = Except.ok (db1, 1) ∧
      pg_upsert_weather_observation db1 id2 = Except.ok (db2, 1) ∧
      db2.obs.filter
          (fun r => decide (obsKey r = (r2.location_id, n2.observed_at)))
        = [mkObsRow r2 id2 n2] ∧
      pg_upsert_weather_observation db2 id2 = Except.ok (db2, 1) := by
  have hkey1 : obsKey (mkObsRow r1 id1 n1) = (r2.location_id, n2.observed_at) := by
    simp [obsKey, mkObsRow, hloc, hoat]
  have hkey2 : obsKey (mkObsRow r2 id2 n2) = (r2.location_id, n2.observed_at) := by
    simp [obsKey, mkObsRow]
  refine
    ⟨{ db with
         obs := keyedUpsert obsKey db.obs (r1.location_id, n1.observed_at)
                  (mkObsRow r1 id1 n1) },
     { db with
         obs := keyedUpsert obsKey
                  (keyedUpsert obsKey db.obs (r1.location_id, n1.observed_at)
                    (mkObsRow r1 id1 n1))
                  (r2.location_id, n2.observed_at) (mkObsRow r2 id2 n2) },
     ?_, ?_, ?_, ?_⟩
  · simp only [pg_upsert_weather_observation, h1, hn1]
  · simp only [pg_upsert_weather_observation, h2, hn2]
  · rw [keyedUpsert_filter_eq obsKey (r2.location_id, n2.observed_at)
      (mkObsRow r2 id2 n2) _ hkey2 ?_ (r2.location_id, n2.observed_at),
      if_pos rfl]
    have hkd : keyedUpsert obsKey db.obs (r1.location_id, n1.observed_at)
        (mkObsRow r1 id1 n1) =
        keyedUpsert obsKey db.obs (r2.location_id, n2.observed_at)
          (mkObsRow r1 id1 n1) := by
      rw [hloc, hoat]
    rw [hkd]
    exact keyedUpsert_pairwise obsKey (r2.location_id, n2.observed_at)
      (mkObsRow r1 id1 n1) db.obs hkey1 hdist
  · simp only [pg_upsert_weather_observation, h2, hn2]
    rw [keyedUpsert_idem obsKey (r2.location_id, n2.observed_at)
      (mkObsRow r2 id2 n2) _ hkey2]

/-- Witness for C6 on concrete raw rows for location 7 at observation time
100 with temperatures 1 then 2. -/
theorem upsert_curated_last_write_wins_idempotent_witness :
    ∃ db1 db2 : DB,
      pg_upsert_weather_observation twoRawDB 0 = Except.ok (db1, 1) ∧
      pg_upsert_weather_observation db1 1 = Except.ok (db2, 1) ∧
      db2.obs.filter
          (fun r => decide (obsKey r =
            (sampleRaw1.location_id, sampleNorm1.observed_at)))
        = [mkObsRow sampleRaw1 1 sampleNorm1] ∧
      pg_upsert_weather_observation db2 1 = Except.ok (db2, 1) :=
  upsert_curated_last_write_wins_idempotent twoRawDB 0 1 sampleRaw0 sampleRaw1
    sampleNorm0 sampleNorm1 rfl rfl rfl rfl rfl rfl List.Pairwise.nil


/-!
## Latest-snapshot refresh lemmas (claim C1)
-/

theorem filter_map_of_pred_eq {α : Type} (p : α → Bool) (f : α → α)
    (l : List α) (h : ∀ x ∈ l, p (f x) = p x) :
    (l.map f).filter p = (l.filter p).map f := by
  induction l with
  | nil => rfl
  | cons a l ih =>
    have ha := h a (by simp)
    have ihl := ih (fun x hx => h x (by simp [hx]))
    by_cases hpa : p a = true
    · simp [List.filter_cons, hpa, ha, ihl]
    · simp only [Bool.not_eq_true] at hpa
      simp [List.filter_cons, hpa, ha, ihl]

theorem filter_map_untouched {α : Type} (p : α → Bool) (f : α → α)
    (l : List α)
    (h : ∀ x ∈ l, (p x = false ∧ p (f x) = false) ∨ f x = x) :
    (l.map f).filter p = l.filter p := by
  induction l with
  | nil => rfl
  | cons a l ih =>
    have ihl := ih (fun x hx => h x (by simp [hx]))
    rcases h a (by simp) with ⟨h1, h2⟩ | hfa
    · simp [List.filter_cons, h1, h2, ihl]
    · rw [List.map_cons, hfa]
      by_cases hpa : p a = true
      · simp [List.filter_cons, hpa, ihl]
      · simp only [Bool.not_eq_true] at hpa
        simp [List.filter_cons, hpa, ihl]

theorem mem_of_locFilterObs_single {acc : List ObsRow} {loc : ℤ} {s : ObsRow}
    (h : locFilterObs acc loc = [s]) : s ∈ acc ∧ s.location_id = loc := by
  have hs : s ∈ locFilterObs acc loc := by rw [h]; simp
  rw [locFilterObs] at hs
  obtain ⟨h1, h2⟩ := List.mem_filter.mp hs
  rw [decide_eq_true_eq] at h2
  exact ⟨h1, h2⟩

theorem stepBest_pickInv (processed acc : List ObsRow) (r : ObsRow)
    (hinv : PickInv processed acc) :
    PickInv (processed ++ [r]) (stepBest acc r) := by
  obtain ⟨hnone, hsome⟩ := hinv
  have hHas : ∀ loc : ℤ, loc ≠ r.location_id →
      (HasObs (processed ++ [r]) loc ↔ HasObs processed loc) := by
    intro loc hne
    constructor
    · rintro ⟨x, hx, hxl⟩
      rcases List.mem_append.mp hx with hxp | hxr
      · exact ⟨x, hxp, hxl⟩
      · rw [List.mem_singleton] at hxr
        rw [hxr] at hxl
        exact absurd hxl.symm hne
    · rintro ⟨x, hx, hxl⟩
      exact ⟨x, List.mem_append.mpr (Or.inl hx), hxl⟩
  have hstep_ne : ∀ loc : ℤ, loc ≠ r.location_id →
      locFilterObs (stepBest acc r) loc = locFilterObs acc loc := by
    intro loc hne
    rw [stepBest]
    by_cases hex : ∃ s ∈ acc, s.location_id = r.location_id
    · rw [if_pos hex, locFilterObs, locFilterObs]
      apply filter_map_untouched
      intro x _
      by_cases hc : x.location_id = r.location_id ∧ x.observed_at < r.observed_at
      · left
        rw [if_pos hc]
        constructor
        · rw [decide_eq_false_iff_not, hc.1]
          exact fun h => hne h.symm
        · rw [decide_eq_false_iff_not]
          exact fun h => hne h.symm
      · right
        rw [if_neg hc]
    · rw [if_neg hex, locFilterObs, List.filter_append, locFilterObs]
      have hr0 : List.filter (fun s => decide (s.location_id = loc)) [r] = [] := by
        simp only [List.filter_cons, List.filter_nil]
        rw [if_neg]
        rw [decide_eq_true_eq]
        exact fun h => hne h.symm
      rw [hr0, List.append_nil]
  constructor
  · intro loc hloc
    have hne : loc ≠ r.location_id := by
      intro he
      exact hloc ⟨r, List.mem_append.mpr (Or.inr (by simp)), he.symm⟩
    rw [hstep_ne loc hne]
    exact hnone loc (fun hp => hloc ((hHas loc hne).mpr hp))
  · intro loc hloc
    by_cases hne : loc = r.location_id
    · subst hne
      by_cases hp : HasObs processed r.location_id
      · obtain ⟨s, hfs, ⟨r0, hr0, hr0l, hr0o⟩, hbound⟩ := hsome r.location_id hp
        obtain ⟨hsmem, hsloc⟩ := mem_of_locFilterObs_single hfs
        have hex : ∃ t ∈ acc, t.location_id = r.location_id := ⟨s, hsmem, hsloc⟩
        rw [stepBest, if_pos hex]
        have hmap : locFilterObs
            (acc.map (fun t =>
              if t.location_id = r.location_id ∧ t.observed_at < r.observed_at
              then r else t)) r.location_id =
            (locFilterObs acc r.location_id).map (fun t =>
              if t.location_id = r.location_id ∧ t.observed_at < r.observed_at
              then r else t) := by
          rw [locFilterObs, locFilterObs]
          apply filter_map_of_pred_eq
          intro x _
          by_cases hc : x.location_id = r.location_id ∧ x.observed_at < r.observed_at
          · rw [if_pos hc]
            simp [hc.1]
          · rw [if_neg hc]
        rw [hmap, hfs, List.map_cons, List.map_nil]
        by_cases hlt : s.observed_at < r.observed_at
        · rw [if_pos ⟨hsloc, hlt⟩]
          refine ⟨r, rfl, ⟨r, List.mem_append.mpr (Or.inr (by simp)), rfl, rfl⟩,
            ?_⟩
          intro t ht htl
          rcases List.mem_append.mp ht with htp | htr
          · exact le_trans (hbound t htp htl) (le_of_lt hlt)
          · rw [List.mem_singleton] at htr
            rw [htr]
        · rw [if_neg (fun hc => hlt hc.2)]
          refine ⟨s, rfl, ⟨r0, List.mem_append.mpr (Or.inl hr0), hr0l, hr0o⟩,
            ?_⟩
          intro t ht htl
          rcases List.mem_append.mp ht with htp | htr
          · exact hbound t htp htl
          · rw [List.mem_singleton] at htr
            rw [htr]
            exact le_of_not_lt hlt
      · have hacc : locFilterObs acc r.location_id = [] :=
          hnone r.location_id hp
        have hex : ¬ ∃ t ∈ acc, t.location_id = r.location_id := by
          rintro ⟨t, ht, htl⟩
          have : t ∈ locFilterObs acc r.location_id := by
            rw [locFilterObs]
            exact List.mem_filter.mpr ⟨ht, by rw [decide_eq_true_eq]; exact htl⟩
          rw [hacc] at this
          exact absurd this (List.not_mem_nil t)
        rw [stepBest, if_neg hex, locFilterObs, List.filter_append]
        have hacc2 : List.filter (fun s => decide (s.location_id = r.location_id))
            acc = [] := hacc
        rw [hacc2, List.nil_append]
        have hr1 : List.filter (fun s => decide (s.location_id = r.location_id))
            [r] = [r] := by simp
        rw [hr1]
        refine ⟨r, rfl, ⟨r, List.mem_append.mpr (Or.inr (by simp)), rfl, rfl⟩,
          ?_⟩
        intro t ht htl
        rcases List.mem_append.mp ht with htp | htr
        · exact absurd ⟨t, htp, htl⟩ hp
        · rw [List.mem_singleton] at htr
          rw [htr]
    · rw [hstep_ne loc hne]
      obtain ⟨s, hfs, ⟨r0, hr0, hr0l, hr0o⟩, hbound⟩ :=
        hsome loc ((hHas loc hne).mp hloc)
      refine ⟨s, hfs, ⟨r0, List.mem_append.mpr (Or.inl hr0), hr0l, hr0o⟩, ?_⟩
      intro t ht htl
      rcases List.mem_append.mp ht with htp | htr
      · exact hbound t htp htl
      · rw [List.mem_singleton] at htr
        rw [htr] at htl
        exact absurd htl.symm hne

theorem foldl_stepBest_pickInv (obs : List ObsRow) :
    ∀ (processed acc : List ObsRow), PickInv processed acc →
      PickInv (processed ++ obs) (obs.foldl stepBest acc) := by
  induction obs with
  | nil =>
    intro processed acc h
    rw [List.append_nil]
    exact h
  | cons r obs ih =>
    intro processed acc h
    have h1 := ih (processed ++ [r]) (stepBest acc r)
      (stepBest_pickInv processed acc r h)
    rw [List.append_assoc] at h1
    rw [List.singleton_append] at h1
    exact h1

theorem pickLatest_pickInv (obs : List ObsRow) :
    PickInv obs (pickLatestPerLocation obs) := by
  have h0 : PickInv [] [] := by
    constructor
    · intro loc _
      rfl
    · rintro loc ⟨r, hr, _⟩
      exact absurd hr (List.not_mem_nil r)
  have h := foldl_stepBest_pickInv obs [] [] h0
  rw [List.nil_append] at h
  exact h

theorem pickLatest_mem_hasObs (obs : List ObsRow) (s : ObsRow)
    (hs : s ∈ pickLatestPerLocation obs) : HasObs obs s.location_id := by
  by_contra hno
  have h := (pickLatest_pickInv obs).1 s.location_id hno
  have : s ∈ locFilterObs (pickLatestPerLocation obs) s.location_id := by
    rw [locFilterObs]
    exact List.mem_filter.mpr ⟨hs, by simp⟩
  rw [h] at this
  exact absurd this (List.not_mem_nil s)

theorem locFilterLatest_keyedUpsert (acc : List LatestRow) (k : ℤ)
    (new : LatestRow) (loc : ℤ) (hnew : latestKey new = k)
    (hdist : acc.Pairwise (fun a b => latestKey a ≠ latestKey b)) :
    locFilterLatest (keyedUpsert latestKey acc k new) loc =
      if loc = k then [new] else locFilterLatest acc loc :=
  keyedUpsert_filter_eq latestKey k new acc hnew hdist loc

theorem latestFold_filter (now : ℤ) (rows : List ObsRow) :
    ∀ (acc : List LatestRow),
      acc.Pairwise (fun a b => latestKey a ≠ latestKey b) →
      ∀ loc : ℤ,
      (locFilterObs rows loc = [] →
        locFilterLatest
          (rows.foldl
            (fun a r => keyedUpsert latestKey a r.location_id (toLatest r now))
            acc) loc = locFilterLatest acc loc) ∧
      (∀ s : ObsRow, locFilterObs rows loc = [s] →
        locFilterLatest
          (rows.foldl
            (fun a r => keyedUpsert latestKey a r.location_id (toLatest r now))
            acc) loc = [toLatest s now]) := by
  induction rows with
  | nil =>
    intro acc _ loc
    exact ⟨fun _ => rfl, fun s hs => absurd hs (by simp [locFilterObs])⟩
  | cons r rows ih =>
    intro acc hdist loc
    have hdist2 : (keyedUpsert latestKey acc r.location_id
        (toLatest r now)).Pairwise (fun a b => latestKey a ≠ latestKey b) :=
      keyedUpsert_pairwise latestKey r.location_id (toLatest r now) acc rfl
        hdist
    have hacc2 : locFilterLatest
        (keyedUpsert latestKey acc r.location_id (toLatest r now)) loc =
        if loc = r.location_id then [toLatest r now]
        else locFilterLatest acc loc :=
      locFilterLatest_keyedUpsert acc r.location_id (toLatest r now) loc rfl
        hdist
    have ihl := ih (keyedUpsert latestKey acc r.location_id (toLatest r now))
      hdist2 loc
    by_cases hloc : r.location_id = loc
    · have hcons : locFilterObs (r :: rows) loc =
          r :: locFilterObs rows loc := by
        rw [locFilterObs, locFilterObs, List.filter_cons, if_pos]
        rw [decide_eq_true_eq]
        exact hloc
      constructor
      · intro hnil
        rw [hcons] at hnil
        exact absurd hnil (List.cons_ne_nil r _)
      · intro s hs
        rw [hcons] at hs
        injection hs with hrs htail
        rw [List.foldl_cons, ihl.1 htail, hacc2, if_pos hloc.symm, hrs]
    · have hcons : locFilterObs (r :: rows) loc = locFilterObs rows loc := by
        rw [locFilterObs, locFilterObs, List.filter_cons, if_neg]
        rw [decide_eq_true_eq]
        exact hloc
      have hacc3 : locFilterLatest
          (keyedUpsert latestKey acc r.location_id (toLatest r now)) loc =
          locFilterLatest acc loc := by
        rw [hacc2, if_neg (fun h => hloc h.symm)]
      constructor
      · intro hnil
        rw [hcons] at hnil
        rw [List.foldl_cons, ihl.1 hnil, hacc3]
      · intro s hs
        rw [hcons] at hs
        rw [List.foldl_cons, ihl.2 s hs]

theorem latestFold_pairwise (now : ℤ) (rows : List ObsRow) :
    ∀ acc : List LatestRow,
      acc.Pairwise (fun a b => latestKey a ≠ latestKey b) →
      (rows.foldl
        (fun a r => keyedUpsert latestKey a r.location_id (toLatest r now))
        acc).Pairwise (fun a b => latestKey a ≠ latestKey b) := by
  induction rows with
  | nil => exact fun acc h => h
  | cons r rows ih =>
    intro acc h
    rw [List.foldl_cons]
    exact ih _ (keyedUpsert_pairwise latestKey r.location_id (toLatest r now)
      acc rfl h)

theorem latestFold_mem (now : ℤ) (rows : List ObsRow) :
    ∀ (acc : List LatestRow) (x : LatestRow),
      x ∈ rows.foldl
        (fun a r => keyedUpsert latestKey a r.location_id (toLatest r now))
        acc →
      x ∈ acc ∨ ∃ r ∈ rows, x = toLatest r now := by
  induction rows with
  | nil =>
    intro acc x hx
    exact Or.inl hx
  | cons r rows ih =>
    intro acc x hx
    rw [List.foldl_cons] at hx
    rcases ih _ x hx with hacc | ⟨r', hr', hx'⟩
    · rcases keyedUpsert_mem latestKey r.location_id (toLatest r now) acc x
        hacc with h | h
      · exact Or.inl h
      · exact Or.inr ⟨r, by simp, h⟩
    · exact Or.inr ⟨r', by simp [hr'], hx'⟩

theorem reachable_inv (db : DB) (h : Reachable db) : DBInv db := by
  induction h with
  | empty =>
    refine ⟨List.Pairwise.nil, List.Pairwise.nil, ?_⟩
    intro l hl
    exact absurd hl (List.not_mem_nil l)
  | insertRaw db endpoint location_id location_key request_params http_status
      data_timestamp payload now hr ih =>
    exact ih
  | upsert db db' ingestion_id c hr he ih =>
    cases hfind : db.raw.find? (fun r => r.ingestion_id == ingestion_id) with
    | none =>
      rw [pg_upsert_weather_observation, hfind] at he
      exact absurd he (by simp)
    | some raw =>
      cases hnorm : normalize_current_weather_payload raw.payload with
      | error e =>
        simp only [pg_upsert_weather_observation, hfind, hnorm] at he
        exact absurd he (by simp)
      | ok n =>
        simp only [pg_upsert_weather_observation, hfind, hnorm] at he
        injection he with hpair
        injection hpair with h1 h2
        subst h1
        refine ⟨?_, ih.2.1, ?_⟩
        · exact keyedUpsert_pairwise obsKey
            (raw.location_id, n.observed_at) (mkObsRow raw ingestion_id n)
            db.obs rfl ih.1
        · intro l hl
          have hg : ∀ x : ObsRow,
              obsKey x = (raw.location_id, n.observed_at) →
              x.location_id = (mkObsRow raw ingestion_id n).location_id := by
            intro x hx
            exact congrArg Prod.fst hx
          exact keyedUpsert_preserves_proj obsKey
            (raw.location_id, n.observed_at) (mkObsRow raw ingestion_id n)
            (fun x => x.location_id) db.obs hg l.location_id (ih.2.2 l hl)
  | refresh db now hr ih =>
    refine ⟨ih.1, ?_, ?_⟩
    · exact latestFold_pairwise now (pickLatestPerLocation db.obs) db.latest
        ih.2.1
    · intro l hl
      rcases latestFold_mem now (pickLatestPerLocation db.obs) db.latest l hl
        with hmem | ⟨r, hrmem, heq⟩
      · exact ih.2.2 l hmem
      · have : l.location_id = r.location_id := by rw [heq]; rfl
        rw [this]
        exact pickLatest_mem_hasObs db.obs r hrmem

/-- Claim C1: on every database state reachable through this core's
operations, after `pg_refresh_latest` the snapshot table holds exactly one
row per location that has at least one observation, that row's
`observed_at` being the maximum `observed_at` among the location's
observations, and no row for a location with zero observations. -/
theorem refresh_latest_snapshot_per_location_max (db : DB) (now : ℤ)
    (h : Reachable db) :
    (∀ loc : ℤ, HasObs db.obs loc →
      ∃ row : LatestRow,
        locFilterLatest (pg_refresh_latest db now).latest loc = [row] ∧
        (∃ r ∈ db.obs, r.location_id = loc ∧
          r.observed_at = row.observed_at) ∧
        (∀ r ∈ db.obs, r.location_id = loc →
          r.observed_at ≤ row.observed_at))
  ∧ (∀ loc : ℤ, ¬ HasObs db.obs loc →
      locFilterLatest (pg_refresh_latest db now).latest loc = []) := by
  obtain ⟨hobs, hlat, hsub⟩ := reachable_inv db h
  have hpick := pickLatest_pickInv db.obs
  constructor
  · intro loc hloc
    obtain ⟨s, hfs, hatt, hbound⟩ := hpick.2 loc hloc
    have hfold := (latestFold_filter now (pickLatestPerLocation db.obs)
      db.latest hlat loc).2 s hfs
    exact ⟨toLatest s now, hfold, hatt, hbound⟩
  · intro loc hloc
    have hfold := (latestFold_filter now (pickLatestPerLocation db.obs)
      db.latest hlat loc).1 (hpick.1 loc hloc)
    have h2 : locFilterLatest db.latest loc = [] := by
      rw [locFilterLatest, List.filter_eq_nil_iff]
      intro l hl
      rw [decide_eq_true_eq]
      intro heq
      exact hloc (heq ▸ hsub l hl)
    exact hfold.trans h2

/-- Witness for C1 on the reachable state holding one observation for
location 7. -/
theorem refresh_latest_snapshot_per_location_max_witness :
    (∀ loc : ℤ, HasObs oneObsDB.obs loc →
      ∃ row : LatestRow,
        locFilterLatest (pg_refresh_latest oneObsDB 2000).latest loc
          = [row] ∧
        (∃ r ∈ oneObsDB.obs, r.location_id = loc ∧
          r.observed_at = row.observed_at) ∧
        (∀ r ∈ oneObsDB.obs, r.location_id = loc →
          r.observed_at ≤ row.observed_at))
  ∧ (∀ loc : ℤ, ¬ HasObs oneObsDB.obs loc →
      locFilterLatest (pg_refresh_latest oneObsDB 2000).latest loc = []) :=
  refresh_latest_snapshot_per_location_max oneObsDB 2000
    (Reachable.upsert _ oneObsDB 0 1
      (Reachable.insertRaw { raw := [], obs := [], latest := [] } "weather" 7
        "loc7" sampleParams 200 (some 100) sampleRaw0.payload 50
        Reachable.empty)
      rfl)

/-!
## DAG ordering (claim C2)
-/

/-- Claim C2, settled against the DAG wiring: in every dependency-
respecting schedule `dq_checks` runs only after every per-location
extract→upsert chain, and its `expected_location_count` equals the number
of locations returned in step 1; but `refresh_latest` has no upstream
edges at all in the source, so a dependency-respecting schedule may run it
before any per-location chain (exhibited by `refreshFirstOrder`). -/
theorem dag_dq_after_chains_refresh_unconstrained :
    (∀ (n : ℕ) (order : List (WTask n)), RespectsDeps order →
      WTask.dq_checks ∈ order → ∀ i : Fin n,
        WTask.transform_and_upsert_curated i ∈ order ∧
        order.indexOf (WTask.transform_and_upsert_curated i) <
          order.indexOf (WTask.dq_checks : WTask n) ∧
        WTask.extract_and_load_raw i ∈ order ∧
        order.indexOf (WTask.extract_and_load_raw i) <
          order.indexOf (WTask.transform_and_upsert_curated i))
  ∧ (∀ (α β γ : Type) (locations : List α) (f : α → β) (g : β → γ),
      dqExpectedLocations (curatedResults locations f g) = locations.length)
  ∧ (upstreams (WTask.refresh_latest : WTask 1) = [] ∧
    RespectsDeps refreshFirstOrder ∧
    WTask.refresh_latest ∈ refreshFirstOrder ∧
    refreshFirstOrder.indexOf WTask.refresh_latest <
      refreshFirstOrder.indexOf (WTask.extract_and_load_raw 0) ∧
    refreshFirstOrder.indexOf WTask.refresh_latest <
      refreshFirstOrder.indexOf (WTask.transform_and_upsert_curated 0)) := by
  refine ⟨?_, ?_, by decide, by decide, by decide, by decide, by decide⟩
  · intro n order hresp hdq i
    have hup : WTask.transform_and_upsert_curated i ∈
        upstreams (WTask.dq_checks : WTask n) :=
      List.mem_map.mpr ⟨i, List.mem_finRange i, rfl⟩
    obtain ⟨hmem1, hidx1⟩ := hresp WTask.dq_checks hdq
      (WTask.transform_and_upsert_curated i) hup
    have hup2 : WTask.extract_and_load_raw i ∈
        upstreams (WTask.transform_and_upsert_curated i : WTask n) := by
      simp [upstreams]
    obtain ⟨hmem2, hidx2⟩ := hresp (WTask.transform_and_upsert_curated i)
      hmem1 (WTask.extract_and_load_raw i) hup2
    exact ⟨hmem1, hidx1, hmem2, hidx2⟩
  · intro α β γ locations f g
    simp [dqExpectedLocations, curatedResults]

/-- Witness for C2's universally quantified part on the one-location
schedule that runs the chain first. -/
theorem dag_dq_after_chains_refresh_unconstrained_witness :
    RespectsDeps chainFirstOrder ∧
    WTask.dq_checks ∈ chainFirstOrder ∧
    (WTask.transform_and_upsert_curated 0 ∈ chainFirstOrder ∧
      chainFirstOrder.indexOf (WTask.transform_and_upsert_curated 0) <
        chainFirstOrder.indexOf (WTask.dq_checks : WTask 1) ∧
      WTask.extract_and_load_raw 0 ∈ chainFirstOrder ∧
      chainFirstOrder.indexOf (WTask.extract_and_load_raw 0) <
        chainFirstOrder.indexOf (WTask.transform_and_upsert_curated 0)) :=
  ⟨by decide, by decide,
    dag_dq_after_chains_refresh_unconstrained.1 1 chainFirstOrder (by decide)
      (by decide) 0⟩
